import Mathlib

/-
  Shallow embedding of the browser-side map engine of VillageRide
  (static/js/map.js): layer rendering of ride/request records, viewport
  bounds accumulation, reverse geocoding with fallback, and the
  click/mode/marker state machine, together with proofs of the spec's
  testable properties.

  JS `null`/`undefined` field values are modelled with `Option`; JS numbers
  are modelled with `ℚ`; the promise chain of `reverseGeocode` is modelled
  as an explicit result type with a log of callback invocations.
-/

namespace VillageRide

/-- A geographic coordinate pair, as produced by `L.latLng`. -/
structure LatLng where
  lat : ℚ
  lng : ℚ
deriving DecidableEq

/-- A ride record from `window.ridesData`.  Fields that the code reads with
a `== null` guard or a truthiness test are `Option`-valued; popup-only
fields that never influence geometry are carried but unused by rendering. -/
structure RideRecord where
  from_lat : Option ℚ
  from_lng : Option ℚ
  to_lat : Option ℚ
  to_lng : Option ℚ
  ride_type : Option String
  driver : Option String
  phone : Option String
deriving DecidableEq

/-- A request record from `window.requestsData`. -/
structure RequestRecord where
  from_lat : Option ℚ
  from_lng : Option ℚ
  passenger : Option String
  to_location : Option String
  note : Option String
  phone : Option String
deriving DecidableEq

/-- The fixed palette `rideTypeColors`; JS object lookup yields `undefined`
for unknown keys, modelled by `none`. -/
def rideTypeColors (t : String) : Option String :=
  if t = "work" then some "#2563eb"
  else if t = "school" then some "#16a34a"
  else if t = "healthcare" then some "#dc2626"
  else if t = "other" then some "#6b7280"
  else none

/-- The line color `rideTypeColors[r.ride_type] || "#6b7280"`. -/
def rideColor (r : RideRecord) : String :=
  match r.ride_type with
  | none => "#6b7280"
  | some t => (rideTypeColors t).getD "#6b7280"

/-- A polyline added to the rides layer: its two endpoints and its color. -/
structure Polyline where
  src : LatLng
  dst : LatLng
  color : String
deriving DecidableEq

/-- `L.latLngBounds([])`: either invalid (no corners yet) or a pair of
south-west / north-east corners. -/
structure Bounds where
  corners : Option (LatLng × LatLng)
deriving DecidableEq

/-- `bounds.extend(p)`: a first point initialises both corners; later
points push the corners outward coordinatewise. -/
def Bounds.extend (b : Bounds) (p : LatLng) : Bounds :=
  match b.corners with
  | none => ⟨some (p, p)⟩
  | some (sw, ne) =>
      ⟨some (⟨min sw.lat p.lat, min sw.lng p.lng⟩,
             ⟨max ne.lat p.lat, max ne.lng p.lng⟩)⟩

/-- `bounds.isValid()`. -/
def Bounds.isValid (b : Bounds) : Bool :=
  b.corners.isSome

/-- Whether a point lies inside the bounds rectangle. -/
def Bounds.containsPt (b : Bounds) (p : LatLng) : Bool :=
  match b.corners with
  | none => false
  | some (sw, ne) =>
      decide (sw.lat ≤ p.lat) && decide (p.lat ≤ ne.lat) &&
      decide (sw.lng ≤ p.lng) && decide (p.lng ≤ ne.lng)

/-- The mutable rendering state built up by the two `forEach` loops:
the two overlay layer groups and the accumulated bounds. -/
structure RenderState where
  ridesLayer : List Polyline
  requestsLayer : List LatLng
  bounds : Bounds
deriving DecidableEq

/-- State before either loop runs: both layers empty, invalid bounds. -/
def initialRenderState : RenderState :=
  ⟨[], [], ⟨none⟩⟩

/-- One iteration of `rides.forEach`: skip unless all four coordinates are
non-null; otherwise add the colored line and extend the bounds by both
endpoints.  Popup construction is side-effect free on the geometry and
is omitted. -/
def renderRide (st : RenderState) (r : RideRecord) : RenderState :=
  match r.from_lat, r.from_lng, r.to_lat, r.to_lng with
  | some flat, some flng, some tlat, some tlng =>
      let src : LatLng := ⟨flat, flng⟩
      let dst : LatLng := ⟨tlat, tlng⟩
      ⟨st.ridesLayer ++ [⟨src, dst, rideColor r⟩],
       st.requestsLayer,
       (st.bounds.extend src).extend dst⟩
  | _, _, _, _ => st

/-- One iteration of `requests.forEach`: skip unless both origin
coordinates are non-null; otherwise add the circle marker and extend the
bounds by the origin. -/
def renderRequest (st : RenderState) (req : RequestRecord) : RenderState :=
  match req.from_lat, req.from_lng with
  | some flat, some flng =>
      let src : LatLng := ⟨flat, flng⟩
      ⟨st.ridesLayer,
       st.requestsLayer ++ [src],
       st.bounds.extend src⟩
  | _, _ => st

/-- Both `forEach` loops, in source order (rides first, then requests). -/
def renderAll (rides : List RideRecord) (requests : List RequestRecord) :
    RenderState :=
  requests.foldl renderRequest (rides.foldl renderRide initialRenderState)

/-- The line a single ride record contributes, if any. -/
def rideLine (r : RideRecord) : Option Polyline :=
  match r.from_lat, r.from_lng, r.to_lat, r.to_lng with
  | some flat, some flng, some tlat, some tlng =>
      some ⟨⟨flat, flng⟩, ⟨tlat, tlng⟩, rideColor r⟩
  | _, _, _, _ => none

/-- The marker a single request record contributes, if any. -/
def requestPoint (req : RequestRecord) : Option LatLng :=
  match req.from_lat, req.from_lng with
  | some flat, some flng => some ⟨flat, flng⟩
  | _, _ => none

/-- A ride record with all four coordinate fields non-null. -/
def hasAllCoords (r : RideRecord) : Bool :=
  r.from_lat.isSome && r.from_lng.isSome && r.to_lat.isSome && r.to_lng.isSome

/-- A request record with both origin coordinate fields non-null. -/
def hasOriginCoords (req : RequestRecord) : Bool :=
  req.from_lat.isSome && req.from_lng.isSome

/-- The coordinates a single ride record pushes into the bounds. -/
def ridePts (r : RideRecord) : List LatLng :=
  match rideLine r with
  | some pl => [pl.src, pl.dst]
  | none => []

/-- The coordinates a single request record pushes into the bounds. -/
def requestPts (req : RequestRecord) : List LatLng :=
  match requestPoint req with
  | some p => [p]
  | none => []

/-- Every coordinate plotted onto either overlay, in accumulation order. -/
def plottedPoints (rides : List RideRecord) (requests : List RequestRecord) :
    List LatLng :=
  (rides.map ridePts).flatten ++ (requests.map requestPts).flatten

/-- `L.map(mapEl).setView(DEFAULT_CENTER, DEFAULT_ZOOM)` with the constants
of the source. -/
def DEFAULT_CENTER : LatLng :=
  ⟨Rat.divInt 2139 50, Rat.divInt 1189 50⟩

/-- The default zoom level. -/
def DEFAULT_ZOOM : ℕ :=
  12

/-- The final viewport: either untouched default center/zoom, or fitted to
bounds with a fixed pixel padding. -/
inductive MapView
  | stay (center : LatLng) (zoom : ℕ)
  | fitted (b : Bounds) (padX padY : ℕ)
deriving DecidableEq

/-- `if (bounds.isValid()) map.fitBounds(bounds, padding [24, 24])`,
otherwise the view set at startup is kept. -/
def finalView (rides : List RideRecord) (requests : List RequestRecord) :
    MapView :=
  if (renderAll rides requests).bounds.isValid then
    MapView.fitted (renderAll rides requests).bounds 24 24
  else MapView.stay DEFAULT_CENTER DEFAULT_ZOOM

/-- The optional `address` sub-object of a Nominatim `jsonv2` response. -/
structure Address where
  village : Option String
  town : Option String
  city : Option String
deriving DecidableEq

/-- The parsed JSON body of a Nominatim response. -/
structure GeoResponse where
  address : Option Address
  display_name : Option String
deriving DecidableEq

/-- JS truthiness of an optional string field: `null`, `undefined` and the
empty string are all falsy, so `a || b` skips them. -/
def strTruthy : Option String → Option String
  | none => none
  | some s => if s = "" then none else some s

/-- `Number.prototype.toFixed(5)` on the rational model: fixed-point
rendering with five fraction digits, rounding `|q| * 100000` half up;
`(2 * a + d) / (2 * d)` in natural division is exactly
`⌊a / d + 1 / 2⌋` for the scaled numerator `a` over the denominator `d`. -/
def toFixed5 (q : ℚ) : String :=
  let a : ℕ := q.num.natAbs * 100000
  let v : ℕ := (2 * a + q.den) / (2 * q.den)
  let ip : ℕ := v / 100000
  let fp : ℕ := v % 100000
  let fs : String := toString fp
  (if q.num < 0 then "-" else "") ++ toString ip ++ "." ++
    String.mk (List.replicate (5 - fs.length) '0') ++ fs

/-- The numeric fallback label: the clicked coordinates to 5 decimal
places, comma-separated. -/
def fallbackLabel (lat lng : ℚ) : String :=
  toFixed5 lat ++ ", " ++ toFixed5 lng

/-- The `let label = ...` expression of the second `.then` handler:
`(data.address && (village || town || city)) || display_name || fallback`,
with JS string truthiness. -/
def chooseLabel (lat lng : ℚ) (data : GeoResponse) : String :=
  match data.address.bind
      (fun a => (strTruthy a.village <|> strTruthy a.town) <|> strTruthy a.city) with
  | some s => s
  | none =>
      match strTruthy data.display_name with
      | some s => s
      | none => fallbackLabel lat lng

/-- A settled JS promise: resolved with a value, or rejected with an
error message. -/
inductive PResult (α : Type)
  | resolved (a : α)
  | rejected (e : String)
deriving DecidableEq

/-- The `Response` object seen by the first `.then` handler: its `ok`
flag, its `status`, and the promise returned by `res.json()`. -/
structure JsResponse where
  ok : Bool
  status : ℕ
  json : PResult GeoResponse
deriving DecidableEq

/-- How one `fetch` of the Nominatim URL can turn out, as observed by the
promise chain. -/
inductive FetchOutcome
  | success (data : GeoResponse)
  | httpError (status : ℕ)
  | networkError
  | malformedPayload
deriving DecidableEq

/-- The `fetch(url)` promise under a given outcome.  On an HTTP error the
body promise is never read; on a malformed payload `res.json()` rejects. -/
def fetchResult : FetchOutcome → PResult JsResponse
  | FetchOutcome.success data => PResult.resolved ⟨true, 200, PResult.resolved data⟩
  | FetchOutcome.httpError s => PResult.resolved ⟨false, s, PResult.rejected "body not read"⟩
  | FetchOutcome.networkError => PResult.rejected "TypeError: Failed to fetch"
  | FetchOutcome.malformedPayload => PResult.resolved ⟨true, 200, PResult.rejected "SyntaxError"⟩

/-- `.then` on a promise chain carrying the log of `callback(...)`
invocations made so far. -/
def thenLog {α β : Type} :
    List String × PResult α → (α → List String × PResult β) →
    List String × PResult β
  | (lg, PResult.resolved a), f => (lg ++ (f a).1, (f a).2)
  | (lg, PResult.rejected e), _ => (lg, PResult.rejected e)

/-- `.catch` on a promise chain carrying the log of `callback(...)`
invocations made so far. -/
def catchLog {α : Type} :
    List String × PResult α → (String → List String × PResult α) →
    List String × PResult α
  | (lg, PResult.resolved a), _ => (lg, PResult.resolved a)
  | (lg, PResult.rejected e), h => (lg ++ (h e).1, (h e).2)

/-- `reverseGeocode(lat, lng, callback)`: the whole promise chain.  The
first component lists the argument of every `callback(...)` invocation in
order; the second is the final settlement of the chain. -/
def reverseGeocode (lat lng : ℚ) (oc : FetchOutcome) :
    List String × PResult Unit :=
  catchLog
    (thenLog
      (thenLog ([], fetchResult oc)
        (fun res =>
          if res.ok then ([], res.json)
          else ([], PResult.rejected ("Nominatim HTTP " ++ toString res.status))))
      (fun data => ([chooseLabel lat lng data], PResult.resolved ())))
    (fun _ => ([fallbackLabel lat lng], PResult.resolved ()))

/-- The one label a lookup at `(lat, lng)` finally hands the callback. -/
def resolvedLabel (lat lng : ℚ) : FetchOutcome → String
  | FetchOutcome.success data => chooseLabel lat lng data
  | _ => fallbackLabel lat lng

/-- The two capture modes of the click handler. -/
inductive Mode
  | mFrom
  | mTo
deriving DecidableEq

/-- The value of one DOM input field: a string (initial page content or a
label write) or a number (a coordinate write). -/
inductive FieldVal
  | s (v : String)
  | n (v : ℚ)
deriving DecidableEq

/-- `setFieldValue(field, value)`: a missing DOM element (`none`) is
silently skipped, an existing one gets the new value. -/
def setFieldValue (field : Option FieldVal) (v : FieldVal) : Option FieldVal :=
  match field with
  | none => none
  | some _ => some v

/-- The twelve form fields the handler writes: four visible place-name
fields and eight hidden coordinate fields; `none` models an element that
is absent from the page. -/
structure FormFields where
  offerFromField : Option FieldVal
  offerToField : Option FieldVal
  requestFromField : Option FieldVal
  requestToField : Option FieldVal
  offerFromLat : Option FieldVal
  offerFromLng : Option FieldVal
  offerToLat : Option FieldVal
  offerToLng : Option FieldVal
  requestFromLat : Option FieldVal
  requestFromLng : Option FieldVal
  requestToLat : Option FieldVal
  requestToLng : Option FieldVal
deriving DecidableEq

/-- `setLatLngInputs(lat, lng, which)`: both forms' hidden coordinate
fields for the given mode. -/
def setLatLngInputs (f : FormFields) (lat lng : ℚ) (which : Mode) :
    FormFields :=
  match which with
  | Mode.mFrom =>
      { f with
        offerFromLat := setFieldValue f.offerFromLat (FieldVal.n lat)
        offerFromLng := setFieldValue f.offerFromLng (FieldVal.n lng)
        requestFromLat := setFieldValue f.requestFromLat (FieldVal.n lat)
        requestFromLng := setFieldValue f.requestFromLng (FieldVal.n lng) }
  | Mode.mTo =>
      { f with
        offerToLat := setFieldValue f.offerToLat (FieldVal.n lat)
        offerToLng := setFieldValue f.offerToLng (FieldVal.n lng)
        requestToLat := setFieldValue f.requestToLat (FieldVal.n lat)
        requestToLng := setFieldValue f.requestToLng (FieldVal.n lng) }

/-- The body of the geocode callback: write the label into both forms'
visible place-name fields for the given mode. -/
def setLabelFields (f : FormFields) (label : String) (m : Mode) :
    FormFields :=
  match m with
  | Mode.mFrom =>
      { f with
        offerFromField := setFieldValue f.offerFromField (FieldVal.s label)
        requestFromField := setFieldValue f.requestFromField (FieldVal.s label) }
  | Mode.mTo =>
      { f with
        offerToField := setFieldValue f.offerToField (FieldVal.s label)
        requestToField := setFieldValue f.requestToField (FieldVal.s label) }

/-- The mutable module state of the click handler: current mode, the two
placement markers (position and attached flag) and the form fields. -/
structure MState where
  currentMode : Mode
  fromMarkerPos : LatLng
  toMarkerPos : LatLng
  fromMarkerAdded : Bool
  toMarkerAdded : Bool
  fields : FormFields
deriving DecidableEq

/-- An in-flight reverse-geocoding lookup created by a click. -/
structure PendingLookup where
  id : ℕ
  lat : ℚ
  lng : ℚ
deriving DecidableEq

/-- The whole interactive system: handler state, in-flight lookups, and a
counter naming the next lookup. -/
structure Sys where
  st : MState
  pending : List PendingLookup
  nextId : ℕ
deriving DecidableEq

/-- Observable events of a run, in execution order. -/
inductive Ev
  | markerAdd (m : Mode)
  | markerMove (m : Mode) (p : LatLng)
  | coordsWrite (id : ℕ) (m : Mode) (p : LatLng)
  | labelWrite (id : ℕ) (m : Mode) (label : String)
deriving DecidableEq

/-- A page on which every form field exists, with empty initial values. -/
def initFields : FormFields :=
  ⟨some (FieldVal.s ""), some (FieldVal.s ""), some (FieldVal.s ""),
   some (FieldVal.s ""), some (FieldVal.s ""), some (FieldVal.s ""),
   some (FieldVal.s ""), some (FieldVal.s ""), some (FieldVal.s ""),
   some (FieldVal.s ""), some (FieldVal.s ""), some (FieldVal.s "")⟩

/-- Startup state: mode `from`, both markers created at the default
center but not attached. -/
def initState : MState :=
  ⟨Mode.mFrom, DEFAULT_CENTER, DEFAULT_CENTER, false, false, initFields⟩

/-- Startup system: no in-flight lookups. -/
def initSys : Sys :=
  ⟨initState, [], 0⟩

/-- The `map.on("click")` handler at point `p`: attach the active mode's
marker if it has never been attached, reposition it, write the hidden
coordinate fields synchronously, and issue one reverse-geocoding lookup. -/
def clickStep (sys : Sys) (p : LatLng) : Sys × List Ev :=
  let st := sys.st
  let idn := sys.nextId
  let stEv :=
    match st.currentMode with
    | Mode.mFrom =>
        (({ st with fromMarkerAdded := true, fromMarkerPos := p } : MState),
         (if st.fromMarkerAdded then [] else [Ev.markerAdd Mode.mFrom]) ++
           [Ev.markerMove Mode.mFrom p])
    | Mode.mTo =>
        (({ st with toMarkerAdded := true, toMarkerPos := p } : MState),
         (if st.toMarkerAdded then [] else [Ev.markerAdd Mode.mTo]) ++
           [Ev.markerMove Mode.mTo p])
  let st2 := { stEv.1 with fields := setLatLngInputs stEv.1.fields p.lat p.lng st.currentMode }
  (⟨st2, sys.pending ++ [⟨idn, p.lat, p.lng⟩], idn + 1⟩,
   stEv.2 ++ [Ev.coordsWrite idn st.currentMode p])

/-- Clicking the `from`/`to` pill button: only the current mode changes. -/
def setModeStep (sys : Sys) (m : Mode) : Sys × List Ev :=
  (⟨{ sys.st with currentMode := m }, sys.pending, sys.nextId⟩, [])

/-- Delivery of the network outcome for in-flight lookup `i`: the promise
chain settles, and each `callback(label)` invocation runs the
label-writing closure, which reads `currentMode` at that moment. -/
def resolveStep (sys : Sys) (i : ℕ) (oc : FetchOutcome) : Sys × List Ev :=
  match sys.pending.find? (fun pl => pl.id == i) with
  | none => (sys, [])
  | some pl =>
      let labels := (reverseGeocode pl.lat pl.lng oc).1
      let m := sys.st.currentMode
      (⟨{ sys.st with fields := labels.foldl (fun f l => setLabelFields f l m) sys.st.fields },
        sys.pending.filter (fun q => q.id != i), sys.nextId⟩,
       labels.map (fun l => Ev.labelWrite i m l))

/-- User-visible and network actions driving the system. -/
inductive UAction
  | clickMap (p : LatLng)
  | setMode (m : Mode)
  | deliver (i : ℕ) (oc : FetchOutcome)
deriving DecidableEq

/-- One action step. -/
def step (sys : Sys) : UAction → Sys × List Ev
  | UAction.clickMap p => clickStep sys p
  | UAction.setMode m => setModeStep sys m
  | UAction.deliver i oc => resolveStep sys i oc

/-- Run a sequence of actions, concatenating the event traces. -/
def run : Sys → List UAction → Sys × List Ev
  | sys, [] => (sys, [])
  | sys, a :: rest =>
      ((run (step sys a).1 rest).1, (step sys a).2 ++ (run (step sys a).1 rest).2)

/-- The trace of a run from startup. -/
def runTrace (acts : List UAction) : List Ev :=
  (run initSys acts).2

/-- The final system of a run from startup. -/
def runSys (acts : List UAction) : Sys :=
  (run initSys acts).1

/-- The attached flag of a mode's placement marker. -/
def markerAddedFlag (st : MState) : Mode → Bool
  | Mode.mFrom => st.fromMarkerAdded
  | Mode.mTo => st.toMarkerAdded

/-- The first present-and-truthy candidate of the label priority chain,
written from the spec's wording: the address's village, town and city in
that order, then the top-level display name. -/
def candidateFields (data : GeoResponse) : List (Option String) :=
  match data.address with
  | some a => [a.village, a.town, a.city, data.display_name]
  | none => [data.display_name]

/-- The label priority cascade as the spec words it (with presence taken
as JS truthiness): first truthy candidate, else the numeric fallback. -/
def specLabelPriority (lat lng : ℚ) (data : GeoResponse) : String :=
  match (candidateFields data).filterMap strTruthy with
  | s :: _ => s
  | [] => fallbackLabel lat lng

/-- A ride record with ordinary coordinates. -/
def sampleRide : RideRecord :=
  ⟨some 1, some 2, some 3, some 4, some "work", some "Иван", none⟩

/-- A ride record missing every coordinate. -/
def noCoordRide : RideRecord :=
  ⟨none, none, none, none, some "work", some "Иван", none⟩

/-- A ride record whose coordinates are all the falsy number 0. -/
def zeroRide : RideRecord :=
  ⟨some 0, some 0, some 0, some 0, none, none, none⟩

/-- A request record whose coordinates are both the falsy number 0. -/
def zeroRequest : RequestRecord :=
  ⟨some 0, some 0, none, none, none, none⟩

/-- How many times the marker of mode `m` is attached to the map in a
trace. -/
def countMarkerAdd (m : Mode) : List Ev → ℕ
  | [] => 0
  | Ev.markerAdd m2 :: t => (if m2 = m then 1 else 0) + countMarkerAdd m t
  | Ev.markerMove _ _ :: t => countMarkerAdd m t
  | Ev.coordsWrite _ _ _ :: t => countMarkerAdd m t
  | Ev.labelWrite _ _ _ :: t => countMarkerAdd m t

/-- The run in which the user clicks in `from` mode, switches to `to`
mode, and only then receives the geocoding response. -/
def cexActs : List UAction :=
  [UAction.clickMap ⟨1, 2⟩, UAction.setMode Mode.mTo,
   UAction.deliver 0 (FetchOutcome.success ⟨some ⟨some "Осойца", none, none⟩, none⟩)]

/-- A successful response carrying only a village name. -/
def villageData : GeoResponse :=
  ⟨some ⟨some "Осойца", none, none⟩, none⟩

/-- A response whose `village` is present but the empty string. -/
def emptyVillageData : GeoResponse :=
  ⟨some ⟨some "", some "Town", none⟩, none⟩

section RendererLemmas

lemma renderRide_none (st : RenderState) (r : RideRecord) (h : rideLine r = none) :
    renderRide st r = st := by
  obtain ⟨fl, fn, tl, tn, rt, dr, ph⟩ := r
  cases fl <;> cases fn <;> cases tl <;> cases tn <;>
    (try simp only [rideLine] at h) <;> first | rfl | cases h

lemma renderRide_some (st : RenderState) (r : RideRecord) (pl : Polyline)
    (h : rideLine r = some pl) :
    renderRide st r =
      ⟨st.ridesLayer ++ [pl], st.requestsLayer,
       (st.bounds.extend pl.src).extend pl.dst⟩ := by
  obtain ⟨fl, fn, tl, tn, rt, dr, ph⟩ := r
  cases fl <;> cases fn <;> cases tl <;> cases tn <;>
    (try simp only [rideLine] at h) <;> cases h <;> rfl

lemma renderRequest_none (st : RenderState) (req : RequestRecord)
    (h : requestPoint req = none) : renderRequest st req = st := by
  obtain ⟨fl, fn, pa, tl, no, ph⟩ := req
  cases fl <;> cases fn <;>
    (try simp only [requestPoint] at h) <;> first | rfl | cases h

lemma renderRequest_some (st : RenderState) (req : RequestRecord) (p : LatLng)
    (h : requestPoint req = some p) :
    renderRequest st req =
      ⟨st.ridesLayer, st.requestsLayer ++ [p], st.bounds.extend p⟩ := by
  obtain ⟨fl, fn, pa, tl, no, ph⟩ := req
  cases fl <;> cases fn <;>
    (try simp only [requestPoint] at h) <;> cases h <;> rfl

lemma ridesLayer_foldl_rides (rides : List RideRecord) (st : RenderState) :
    (rides.foldl renderRide st).ridesLayer = st.ridesLayer ++ rides.filterMap rideLine := by
  induction rides generalizing st with
  | nil => simp
  | cons r rs ih =>
      rw [List.foldl_cons, List.filterMap_cons, ih]
      cases h : rideLine r with
      | none => rw [renderRide_none st r h]
      | some pl => rw [renderRide_some st r pl h]; simp

lemma requestsLayer_foldl_rides (rides : List RideRecord) (st : RenderState) :
    (rides.foldl renderRide st).requestsLayer = st.requestsLayer := by
  induction rides generalizing st with
  | nil => rfl
  | cons r rs ih =>
      rw [List.foldl_cons, ih]
      cases h : rideLine r with
      | none => rw [renderRide_none st r h]
      | some pl => rw [renderRide_some st r pl h]

lemma ridesLayer_foldl_requests (requests : List RequestRecord) (st : RenderState) :
    (requests.foldl renderRequest st).ridesLayer = st.ridesLayer := by
  induction requests generalizing st with
  | nil => rfl
  | cons req rs ih =>
      rw [List.foldl_cons, ih]
      cases h : requestPoint req with
      | none => rw [renderRequest_none st req h]
      | some p => rw [renderRequest_some st req p h]

lemma requestsLayer_foldl_requests (requests : List RequestRecord) (st : RenderState) :
    (requests.foldl renderRequest st).requestsLayer =
      st.requestsLayer ++ requests.filterMap requestPoint := by
  induction requests generalizing st with
  | nil => simp
  | cons req rs ih =>
      rw [List.foldl_cons, List.filterMap_cons, ih]
      cases h : requestPoint req with
      | none => rw [renderRequest_none st req h]
      | some p => rw [renderRequest_some st req p h]; simp

lemma isSome_rideLine (r : RideRecord) : (rideLine r).isSome = hasAllCoords r := by
  obtain ⟨fl, fn, tl, tn, rt, dr, ph⟩ := r
  cases fl <;> cases fn <;> cases tl <;> cases tn <;> rfl

lemma isSome_requestPoint (req : RequestRecord) :
    (requestPoint req).isSome = hasOriginCoords req := by
  obtain ⟨fl, fn, pa, tl, no, ph⟩ := req
  cases fl <;> cases fn <;> rfl

lemma length_filterMap_rideLine (rides : List RideRecord) :
    (rides.filterMap rideLine).length = (rides.filter hasAllCoords).length := by
  induction rides with
  | nil => rfl
  | cons r rs ih =>
      rw [List.filterMap_cons, List.filter_cons]
      cases h : rideLine r with
      | none =>
          have := isSome_rideLine r
          rw [h] at this
          simp [← this, ih]
      | some pl =>
          have := isSome_rideLine r
          rw [h] at this
          simp [← this, ih]

lemma length_filterMap_requestPoint (requests : List RequestRecord) :
    (requests.filterMap requestPoint).length =
      (requests.filter hasOriginCoords).length := by
  induction requests with
  | nil => rfl
  | cons req rs ih =>
      rw [List.filterMap_cons, List.filter_cons]
      cases h : requestPoint req with
      | none =>
          have := isSome_requestPoint req
          rw [h] at this
          simp [← this, ih]
      | some p =>
          have := isSome_requestPoint req
          rw [h] at this
          simp [← this, ih]

lemma bounds_renderRide (st : RenderState) (r : RideRecord) :
    (renderRide st r).bounds = (ridePts r).foldl Bounds.extend st.bounds := by
  cases h : rideLine r with
  | none => rw [renderRide_none st r h]; simp [ridePts, h]
  | some pl => rw [renderRide_some st r pl h]; simp [ridePts, h]

lemma bounds_renderRequest (st : RenderState) (req : RequestRecord) :
    (renderRequest st req).bounds = (requestPts req).foldl Bounds.extend st.bounds := by
  cases h : requestPoint req with
  | none => rw [renderRequest_none st req h]; simp [requestPts, h]
  | some p => rw [renderRequest_some st req p h]; simp [requestPts, h]

lemma bounds_foldl_rides (rides : List RideRecord) (st : RenderState) :
    (rides.foldl renderRide st).bounds =
      ((rides.map ridePts).flatten).foldl Bounds.extend st.bounds := by
  induction rides generalizing st with
  | nil => rfl
  | cons r rs ih =>
      rw [List.foldl_cons, ih, List.map_cons]
      simp [List.foldl_append, bounds_renderRide]

lemma bounds_foldl_requests (requests : List RequestRecord) (st : RenderState) :
    (requests.foldl renderRequest st).bounds =
      ((requests.map requestPts).flatten).foldl Bounds.extend st.bounds := by
  induction requests generalizing st with
  | nil => rfl
  | cons req rs ih =>
      rw [List.foldl_cons, ih, List.map_cons]
      simp [List.foldl_append, bounds_renderRequest]

lemma renderAll_bounds (rides : List RideRecord) (requests : List RequestRecord) :
    (renderAll rides requests).bounds =
      (plottedPoints rides requests).foldl Bounds.extend ⟨none⟩ := by
  unfold renderAll plottedPoints
  rw [bounds_foldl_requests, bounds_foldl_rides, List.foldl_append]
  rfl

lemma isValid_extend (b : Bounds) (p : LatLng) : (b.extend p).isValid = true := by
  obtain ⟨c⟩ := b
  cases c with
  | none => rfl
  | some sn => obtain ⟨sw, ne⟩ := sn; rfl

lemma isValid_foldl_extend (pts : List LatLng) (b : Bounds) (h : b.isValid = true) :
    (pts.foldl Bounds.extend b).isValid = true := by
  induction pts generalizing b with
  | nil => exact h
  | cons x xs ih => exact ih _ (isValid_extend b x)

lemma isValid_foldl_of_ne_nil (pts : List LatLng) (b : Bounds) (h : pts ≠ []) :
    (pts.foldl Bounds.extend b).isValid = true := by
  cases pts with
  | nil => exact absurd rfl h
  | cons x xs => exact isValid_foldl_extend xs _ (isValid_extend b x)

lemma containsPt_some_iff (sw ne p : LatLng) :
    (Bounds.mk (some (sw, ne))).containsPt p = true ↔
      (sw.lat ≤ p.lat ∧ p.lat ≤ ne.lat ∧ sw.lng ≤ p.lng ∧ p.lng ≤ ne.lng) := by
  simp only [Bounds.containsPt, Bool.and_eq_true, decide_eq_true_eq, and_assoc]

lemma containsPt_extend_self (b : Bounds) (p : LatLng) :
    (b.extend p).containsPt p = true := by
  obtain ⟨c⟩ := b
  cases c with
  | none =>
      show (Bounds.mk (some (p, p))).containsPt p = true
      exact (containsPt_some_iff p p p).mpr ⟨le_refl _, le_refl _, le_refl _, le_refl _⟩
  | some sn =>
      obtain ⟨sw, ne⟩ := sn
      show (Bounds.mk (some (⟨min sw.lat p.lat, min sw.lng p.lng⟩,
        ⟨max ne.lat p.lat, max ne.lng p.lng⟩))).containsPt p = true
      exact (containsPt_some_iff _ _ p).mpr
        ⟨min_le_right _ _, le_max_right _ _, min_le_right _ _, le_max_right _ _⟩

lemma containsPt_extend_mono (b : Bounds) (p q : LatLng)
    (h : b.containsPt q = true) : (b.extend p).containsPt q = true := by
  obtain ⟨c⟩ := b
  cases c with
  | none => exact absurd h (by simp [Bounds.containsPt])
  | some sn =>
      obtain ⟨sw, ne⟩ := sn
      obtain ⟨h1, h2, h3, h4⟩ := (containsPt_some_iff sw ne q).mp h
      show (Bounds.mk (some (⟨min sw.lat p.lat, min sw.lng p.lng⟩,
        ⟨max ne.lat p.lat, max ne.lng p.lng⟩))).containsPt q = true
      exact (containsPt_some_iff _ _ q).mpr
        ⟨le_trans (min_le_left _ _) h1, le_trans h2 (le_max_left _ _),
         le_trans (min_le_left _ _) h3, le_trans h4 (le_max_left _ _)⟩

lemma containsPt_foldl_mono (pts : List LatLng) (b : Bounds) (q : LatLng)
    (h : b.containsPt q = true) :
    (pts.foldl Bounds.extend b).containsPt q = true := by
  induction pts generalizing b with
  | nil => exact h
  | cons x xs ih => exact ih _ (containsPt_extend_mono b x q h)

lemma containsPt_foldl_of_mem (pts : List LatLng) :
    ∀ (b : Bounds) (p : LatLng), p ∈ pts →
      (pts.foldl Bounds.extend b).containsPt p = true := by
  induction pts with
  | nil => intro b p hp; cases hp
  | cons x xs ih =>
      intro b p hp
      rcases List.mem_cons.mp hp with h | h
      · subst h
        exact containsPt_foldl_mono xs _ p (containsPt_extend_self b p)
      · exact ih _ p h

end RendererLemmas

/-- C1: a line is added to the rides overlay exactly for the ride records
whose four coordinate fields are all present: the rides layer is the
`filterMap` of the per-record line, a record yields a line exactly when
all four coordinates are present, and the number of rendered lines equals
the number of fully-coordinated ride records. -/
theorem C1_ride_lines_rendered (rides : List RideRecord)
    (requests : List RequestRecord) :
    (renderAll rides requests).ridesLayer = rides.filterMap rideLine ∧
    (∀ r : RideRecord, (rideLine r).isSome = hasAllCoords r) ∧
    (renderAll rides requests).ridesLayer.length =
      (rides.filter hasAllCoords).length := by
  have h1 : (renderAll rides requests).ridesLayer = rides.filterMap rideLine := by
    unfold renderAll
    rw [ridesLayer_foldl_requests, ridesLayer_foldl_rides]
    rfl
  exact ⟨h1, isSome_rideLine, by rw [h1, length_filterMap_rideLine]⟩

/-- C2: exactly one point marker is added to the requests overlay for each
request record whose origin coordinates are both present, regardless of
every other field: the requests layer is the `filterMap` of the per-record
origin, a record yields a marker exactly when both origin coordinates are
present, the marker count equals the count of such records, and the origin
alone determines the marker whatever the other fields hold. -/
theorem C2_request_markers_rendered (rides : List RideRecord)
    (requests : List RequestRecord) :
    (renderAll rides requests).requestsLayer = requests.filterMap requestPoint ∧
    (∀ req : RequestRecord, (requestPoint req).isSome = hasOriginCoords req) ∧
    (renderAll rides requests).requestsLayer.length =
      (requests.filter hasOriginCoords).length ∧
    (∀ flat flng pa tl no ph,
      requestPoint ⟨some flat, some flng, pa, tl, no, ph⟩ = some ⟨flat, flng⟩) := by
  have h1 : (renderAll rides requests).requestsLayer =
      requests.filterMap requestPoint := by
    unfold renderAll
    rw [requestsLayer_foldl_requests, requestsLayer_foldl_rides]
    rfl
  refine ⟨h1, isSome_requestPoint, by rw [h1, length_filterMap_requestPoint], ?_⟩
  intro flat flng pa tl no ph
  rfl

/-- C3 counterexample: a non-empty record set need not trigger a viewport
fit — one ride record missing all coordinates leaves the map at the
default center and zoom, refuting "if the combined record set is
non-empty, the viewport is fit to the accumulated bounds". -/
theorem C3_counterexample :
    ¬ (∀ (rides : List RideRecord) (requests : List RequestRecord),
        (rides ≠ [] ∨ requests ≠ []) →
        ∃ b, finalView rides requests = MapView.fitted b 24 24) := by
  intro h
  obtain ⟨b, hb⟩ := h [noCoordRide] [] (Or.inl (by simp))
  rw [show finalView [noCoordRide] [] =
        MapView.stay DEFAULT_CENTER DEFAULT_ZOOM from rfl] at hb
  exact MapView.noConfusion hb

/-- C3 (amended): the viewport is fit, with padding 24, exactly when at
least one coordinate was accumulated; when no record contributes a
coordinate — in particular when the combined record set is empty — the map
keeps the default center and zoom; and the fitted bounds contain every
plotted coordinate. -/
theorem C3_viewport_fit (rides : List RideRecord)
    (requests : List RequestRecord) :
    ((rides = [] ∧ requests = []) →
      finalView rides requests = MapView.stay DEFAULT_CENTER DEFAULT_ZOOM) ∧
    (plottedPoints rides requests = [] →
      finalView rides requests = MapView.stay DEFAULT_CENTER DEFAULT_ZOOM) ∧
    (plottedPoints rides requests ≠ [] →
      finalView rides requests =
        MapView.fitted (renderAll rides requests).bounds 24 24 ∧
      ∀ p ∈ plottedPoints rides requests,
        (renderAll rides requests).bounds.containsPt p = true) := by
  have hb := renderAll_bounds rides requests
  have hstay : plottedPoints rides requests = [] →
      finalView rides requests = MapView.stay DEFAULT_CENTER DEFAULT_ZOOM := by
    intro hpts
    have hnone : (renderAll rides requests).bounds = ⟨none⟩ := by
      rw [hb, hpts]
      rfl
    unfold finalView
    rw [hnone]
    rfl
  refine ⟨?_, hstay, ?_⟩
  · rintro ⟨rfl, rfl⟩
    exact hstay rfl
  · intro hpts
    have hvalid : (renderAll rides requests).bounds.isValid = true := by
      rw [hb]; exact isValid_foldl_of_ne_nil _ _ hpts
    constructor
    · unfold finalView
      rw [if_pos hvalid]
    · intro p hp
      rw [hb]
      exact containsPt_foldl_of_mem _ _ _ hp

/-- C3 witness: concrete instances — the empty record set keeps the
default view, and a single fully-coordinated ride triggers a fit whose
bounds contain its endpoints. -/
theorem C3_witness :
    finalView [] [] = MapView.stay DEFAULT_CENTER DEFAULT_ZOOM ∧
    (finalView [sampleRide] [] =
        MapView.fitted (renderAll [sampleRide] []).bounds 24 24 ∧
      ∀ p ∈ plottedPoints [sampleRide] [],
        (renderAll [sampleRide] []).bounds.containsPt p = true) :=
  ⟨(C3_viewport_fit [] []).1 ⟨rfl, rfl⟩,
   (C3_viewport_fit [sampleRide] []).2.2 (by decide)⟩

/-- C10: the rendering guards test only for null/undefined, so a record is
skipped exactly when a required coordinate field is absent, and coordinate
values of 0 — though falsy in JS — are still rendered, both for rides and
for requests. -/
theorem C10_zero_coordinates_rendered :
    (∀ r : RideRecord, rideLine r = none ↔
      (r.from_lat = none ∨ r.from_lng = none ∨ r.to_lat = none ∨
        r.to_lng = none)) ∧
    (∀ req : RequestRecord, requestPoint req = none ↔
      (req.from_lat = none ∨ req.from_lng = none)) ∧
    rideLine zeroRide = some ⟨⟨0, 0⟩, ⟨0, 0⟩, "#6b7280"⟩ ∧
    requestPoint zeroRequest = some ⟨0, 0⟩ ∧
    (renderAll [zeroRide] [zeroRequest]).ridesLayer.length = 1 ∧
    (renderAll [zeroRide] [zeroRequest]).requestsLayer.length = 1 := by
  refine ⟨?_, ?_, by decide, by decide, by decide, by decide⟩
  · intro r
    obtain ⟨fl, fn, tl, tn, rt, dr, ph⟩ := r
    cases fl <;> cases fn <;> cases tl <;> cases tn <;> simp [rideLine]
  · intro req
    obtain ⟨fl, fn, pa, tl, no, ph⟩ := req
    cases fl <;> cases fn <;> simp [requestPoint]

/-- C10 witness: the skip condition applied to a record with no
coordinates at all. -/
theorem C10_witness : rideLine noCoordRide = none :=
  (C10_zero_coordinates_rendered.1 noCoordRide).mpr (Or.inl rfl)

/-- C4 counterexample: a present but empty `address.village` is not
chosen — with village `""` and town `"Town"`, the label resolves to
`"Town"`, refuting "address.village if present" under the claim set's
reading of present as non-null/undefined. -/
theorem C4_counterexample :
    ¬ (∀ (lat lng : ℚ) (data : GeoResponse) (v : String),
        data.address.bind Address.village = some v →
        chooseLabel lat lng data = v) := by
  intro h
  have hx := h 1 2 emptyVillageData "" rfl
  exact absurd hx (by decide)

/-- C4 (amended): the label is chosen by strict priority among the
present-and-non-empty (JS-truthy) candidates — village, then town, then
city, then the top-level display name — and otherwise is the numeric
fallback of the clicked coordinates to 5 decimal places; the source's
`&&`/`||` expression equals this cascade, and the spec's concrete
examples hold. -/
theorem C4_label_priority :
    (∀ (lat lng : ℚ) (data : GeoResponse),
      chooseLabel lat lng data = specLabelPriority lat lng data) ∧
    chooseLabel (Rat.divInt 428 10) (Rat.divInt 238 10) villageData = "Осойца" ∧
    (∀ (lat lng : ℚ) (s : String), s ≠ "" →
      chooseLabel lat lng ⟨none, some s⟩ = s) ∧
    fallbackLabel (Rat.divInt 428 10) (Rat.divInt 238 10) = "42.80000, 23.80000" := by
  refine ⟨?_, by decide, ?_, by decide⟩
  · rintro lat lng ⟨addr, dn⟩
    cases addr with
    | none =>
        unfold chooseLabel specLabelPriority candidateFields
        cases hd : strTruthy dn <;> simp [hd]
    | some a =>
        obtain ⟨v, t, c⟩ := a
        unfold chooseLabel specLabelPriority candidateFields
        cases hv : strTruthy v <;> cases ht : strTruthy t <;>
          cases hc : strTruthy c <;> cases hd : strTruthy dn <;>
            simp [hv, ht, hc, hd]
  · intro lat lng s hs
    unfold chooseLabel
    simp [strTruthy, hs]

/-- C4 witness: the display-name clause applied at the spec's example of
a response carrying only `display_name: "X, Y"`. -/
theorem C4_witness : chooseLabel 1 2 ⟨none, some "X, Y"⟩ = "X, Y" :=
  C4_label_priority.2.2.1 1 2 "X, Y" (by decide)

/-- C5: every failing lookup — non-success HTTP status, network error, or
malformed payload — still invokes the callback exactly once with the
numeric fallback label; the chain always settles resolved (never a
rejected/unhandled failure); and in general the single `fetch` per call
invokes the callback exactly once with the resolved label (no retry is
modelled because the chain contains exactly one fetch). -/
theorem C5_failure_resolves_fallback (lat lng : ℚ) (s : ℕ) (oc : FetchOutcome) :
    (reverseGeocode lat lng (FetchOutcome.httpError s)).1 =
      [fallbackLabel lat lng] ∧
    (reverseGeocode lat lng FetchOutcome.networkError).1 =
      [fallbackLabel lat lng] ∧
    (reverseGeocode lat lng FetchOutcome.malformedPayload).1 =
      [fallbackLabel lat lng] ∧
    (reverseGeocode lat lng oc).2 = PResult.resolved () ∧
    (reverseGeocode lat lng oc).1 = [resolvedLabel lat lng oc] := by
  refine ⟨rfl, rfl, rfl, ?_, ?_⟩ <;> cases oc <;> rfl

section MachineLemmas

lemma labelWrite_not_mem_clickStep (sys : Sys) (p : LatLng) (i : ℕ) (m : Mode)
    (lbl : String) : Ev.labelWrite i m lbl ∉ (clickStep sys p).2 := by
  obtain ⟨⟨cm, fmp, tmp, fma, tma, flds⟩, pend, nid⟩ := sys
  cases cm <;> cases fma <;> cases tma <;> simp [clickStep]

lemma pending_clickStep (sys : Sys) (p : LatLng) :
    (clickStep sys p).1.pending = sys.pending ++ [⟨sys.nextId, p.lat, p.lng⟩] := by
  obtain ⟨⟨cm, fmp, tmp, fma, tma, flds⟩, pend, nid⟩ := sys
  cases cm <;> rfl

lemma coords_mem_clickStep (sys : Sys) (p : LatLng) :
    Ev.coordsWrite sys.nextId sys.st.currentMode p ∈ (clickStep sys p).2 := by
  obtain ⟨⟨cm, fmp, tmp, fma, tma, flds⟩, pend, nid⟩ := sys
  cases cm <;> simp [clickStep]

lemma mem_pending_resolveStep (sys : Sys) (j : ℕ) (oc : FetchOutcome)
    (pl : PendingLookup) (h : pl ∈ (resolveStep sys j oc).1.pending) :
    pl ∈ sys.pending := by
  unfold resolveStep at h
  split at h
  · exact h
  · exact List.mem_of_mem_filter h

lemma resolveStep_label_ids (sys : Sys) (j : ℕ) (oc : FetchOutcome) (i : ℕ)
    (m : Mode) (lbl : String)
    (h : Ev.labelWrite i m lbl ∈ (resolveStep sys j oc).2) :
    ∃ pl ∈ sys.pending, pl.id = i := by
  unfold resolveStep at h
  split at h
  · simp at h
  · next pl hf =>
      obtain ⟨l, hl, heq⟩ := List.mem_map.mp h
      cases heq
      have hpred : (pl.id == j) = true :=
        List.find?_some (p := fun (q : PendingLookup) => q.id == j) hf
      exact ⟨pl, List.mem_of_find?_eq_some hf, by simpa using hpred⟩

lemma step_pending_source (sys : Sys) (a : UAction) (i : ℕ)
    (h : ∃ pl ∈ (step sys a).1.pending, pl.id = i) :
    (∃ pl ∈ sys.pending, pl.id = i) ∨
      (∃ m2 p, Ev.coordsWrite i m2 p ∈ (step sys a).2) := by
  obtain ⟨pl, hmem, hid⟩ := h
  cases a with
  | clickMap p =>
      rw [show (step sys (UAction.clickMap p)).1 = (clickStep sys p).1 from rfl,
        pending_clickStep] at hmem
      rcases List.mem_append.mp hmem with hm | hm
      · exact Or.inl ⟨pl, hm, hid⟩
      · right
        have hpl : pl = ⟨sys.nextId, p.lat, p.lng⟩ := by simpa using hm
        subst hpl
        refine ⟨sys.st.currentMode, p, ?_⟩
        have := coords_mem_clickStep sys p
        rw [show (step sys (UAction.clickMap p)).2 = (clickStep sys p).2 from rfl]
        simpa [← hid] using this
  | setMode m => exact Or.inl ⟨pl, hmem, hid⟩
  | deliver j oc =>
      exact Or.inl ⟨pl, mem_pending_resolveStep sys j oc pl hmem, hid⟩

lemma step_label_source (sys : Sys) (a : UAction) (i : ℕ) (m : Mode)
    (lbl : String) (h : Ev.labelWrite i m lbl ∈ (step sys a).2) :
    ∃ pl ∈ sys.pending, pl.id = i := by
  cases a with
  | clickMap p => exact absurd h (labelWrite_not_mem_clickStep sys p i m lbl)
  | setMode m2 => simp [step, setModeStep] at h
  | deliver j oc => exact resolveStep_label_ids sys j oc i m lbl h

lemma run_label_source (acts : List UAction) :
    ∀ (sys : Sys) (t1 t2 : List Ev) (i : ℕ) (m : Mode) (lbl : String),
      (run sys acts).2 = t1 ++ Ev.labelWrite i m lbl :: t2 →
      (∃ pl ∈ sys.pending, pl.id = i) ∨
        (∃ m2 p, Ev.coordsWrite i m2 p ∈ t1) := by
  induction acts with
  | nil =>
      intro sys t1 t2 i m lbl h
      have hnil : ([] : List Ev) = t1 ++ Ev.labelWrite i m lbl :: t2 := h
      exact absurd hnil.symm (by simp)
  | cons a rest ih =>
      intro sys t1 t2 i m lbl h
      rw [show (run sys (a :: rest)).2 =
        (step sys a).2 ++ (run (step sys a).1 rest).2 from rfl] at h
      rcases List.append_eq_append_iff.mp h with ⟨u, hu1, hu2⟩ | ⟨u, hu1, hu2⟩
      · -- the label event lies in the tail of the run
        rcases ih (step sys a).1 u t2 i m lbl hu2 with hpend | ⟨m2, p, hc⟩
        · rcases step_pending_source sys a i hpend with hl | ⟨m2, p, hc⟩
          · exact Or.inl hl
          · exact Or.inr ⟨m2, p, by rw [hu1]; exact List.mem_append_left _ hc⟩
        · exact Or.inr ⟨m2, p, by rw [hu1]; exact List.mem_append_right _ hc⟩
      · -- the first action's own events overlap the label position
        cases u with
        | nil =>
            rw [List.nil_append] at hu2
            rcases ih (step sys a).1 [] t2 i m lbl (by simpa using hu2.symm) with
              hpend | ⟨m2, p, hc⟩
            · rcases step_pending_source sys a i hpend with hl | ⟨m2, p, hc⟩
              · exact Or.inl hl
              · rw [List.append_nil] at hu1
                exact Or.inr ⟨m2, p, hu1 ▸ hc⟩
            · cases hc
        | cons e u2 =>
            rw [List.cons_append] at hu2
            injection hu2 with he ht
            subst he
            have hmem : Ev.labelWrite i m lbl ∈ (step sys a).2 := by
              rw [hu1]
              exact List.mem_append_right _ (List.mem_cons_self _ _)
            exact Or.inl (step_label_source sys a i m lbl hmem)

lemma countMarkerAdd_append (m : Mode) (a b : List Ev) :
    countMarkerAdd m (a ++ b) = countMarkerAdd m a + countMarkerAdd m b := by
  induction a with
  | nil => simp [countMarkerAdd]
  | cons e t ih => cases e <;> simp [countMarkerAdd, ih, Nat.add_assoc]

lemma countMarkerAdd_map_labelWrite (m : Mode) (i : ℕ) (m2 : Mode)
    (ls : List String) :
    countMarkerAdd m (ls.map (fun l => Ev.labelWrite i m2 l)) = 0 := by
  induction ls with
  | nil => rfl
  | cons l ls ih => simpa [countMarkerAdd] using ih

lemma count_flag_step (sys : Sys) (a : UAction) (m : Mode) :
    countMarkerAdd m (step sys a).2 +
        (if markerAddedFlag sys.st m then 1 else 0) =
      (if markerAddedFlag (step sys a).1.st m then 1 else 0) := by
  cases a with
  | clickMap p =>
      obtain ⟨⟨cm, fmp, tmp, fma, tma, flds⟩, pend, nid⟩ := sys
      cases cm <;> cases m <;> cases fma <;> cases tma <;>
        simp [step, clickStep, markerAddedFlag, countMarkerAdd]
  | setMode m2 =>
      cases m <;> simp [step, setModeStep, markerAddedFlag, countMarkerAdd]
  | deliver j oc =>
      show countMarkerAdd m (resolveStep sys j oc).2 + _ =
        (if markerAddedFlag (resolveStep sys j oc).1.st m then 1 else 0)
      unfold resolveStep
      cases hf : sys.pending.find? (fun pl => pl.id == j) with
      | none => simp [countMarkerAdd]
      | some pl =>
          cases m <;> simp [countMarkerAdd_map_labelWrite, markerAddedFlag]

lemma count_flag_run (acts : List UAction) :
    ∀ (sys : Sys) (m : Mode),
      countMarkerAdd m (run sys acts).2 +
          (if markerAddedFlag sys.st m then 1 else 0) =
        (if markerAddedFlag (run sys acts).1.st m then 1 else 0) := by
  induction acts with
  | nil => intro sys m; simp [run, countMarkerAdd]
  | cons a rest ih =>
      intro sys m
      rw [show (run sys (a :: rest)).2 =
            (step sys a).2 ++ (run (step sys a).1 rest).2 from rfl,
          show (run sys (a :: rest)).1 = (run (step sys a).1 rest).1 from rfl,
          countMarkerAdd_append]
      have h1 := count_flag_step sys a m
      have h2 := ih (step sys a).1 m
      omega

lemma markerMove_not_mem_map_labelWrite (m : Mode) (p : LatLng) (i : ℕ)
    (m2 : Mode) (ls : List String) :
    Ev.markerMove m p ∉ ls.map (fun l => Ev.labelWrite i m2 l) := by
  induction ls with
  | nil => simp
  | cons l ls ih => simp [ih]

lemma flag_step_iff (sys : Sys) (a : UAction) (m : Mode) :
    markerAddedFlag (step sys a).1.st m = true ↔
      (markerAddedFlag sys.st m = true ∨
        ∃ p, Ev.markerMove m p ∈ (step sys a).2) := by
  cases a with
  | clickMap p =>
      obtain ⟨⟨cm, fmp, tmp, fma, tma, flds⟩, pend, nid⟩ := sys
      cases cm <;> cases m <;> cases fma <;> cases tma <;>
        simp [step, clickStep, markerAddedFlag]
  | setMode m2 =>
      cases m <;> simp [step, setModeStep, markerAddedFlag]
  | deliver j oc =>
      show markerAddedFlag (resolveStep sys j oc).1.st m = true ↔
        (_ ∨ ∃ p, Ev.markerMove m p ∈ (resolveStep sys j oc).2)
      unfold resolveStep
      cases hf : sys.pending.find? (fun pl => pl.id == j) with
      | none => simp
      | some pl =>
          cases m <;> simp [markerAddedFlag, markerMove_not_mem_map_labelWrite]

lemma flag_run_iff (acts : List UAction) :
    ∀ (sys : Sys) (m : Mode),
      markerAddedFlag (run sys acts).1.st m = true ↔
        (markerAddedFlag sys.st m = true ∨
          ∃ p, Ev.markerMove m p ∈ (run sys acts).2) := by
  induction acts with
  | nil => intro sys m; simp [run]
  | cons a rest ih =>
      intro sys m
      rw [show (run sys (a :: rest)).1 = (run (step sys a).1 rest).1 from rfl,
          show (run sys (a :: rest)).2 =
            (step sys a).2 ++ (run (step sys a).1 rest).2 from rfl]
      constructor
      · intro h
        rcases (ih _ m).mp h with h2 | ⟨p, hp⟩
        · rcases (flag_step_iff sys a m).mp h2 with h3 | ⟨p, hp⟩
          · exact Or.inl h3
          · exact Or.inr ⟨p, List.mem_append_left _ hp⟩
        · exact Or.inr ⟨p, List.mem_append_right _ hp⟩
      · intro h
        rcases h with h | ⟨p, hp⟩
        · exact (ih _ m).mpr (Or.inl ((flag_step_iff sys a m).mpr (Or.inl h)))
        · rcases List.mem_append.mp hp with hp1 | hp2
          · exact (ih _ m).mpr
              (Or.inl ((flag_step_iff sys a m).mpr (Or.inr ⟨p, hp1⟩)))
          · exact (ih _ m).mpr (Or.inr ⟨p, hp2⟩)

end MachineLemmas

/-- C6: for a single click, the synchronous coordinate write always
precedes the label write of that same click's lookup, whatever the
geocoding latency: wherever a label write for lookup `i` occurs in the
trace of any run, a coordinate write for lookup `i` occurs strictly
earlier. -/
theorem C6_coords_precede_label (acts : List UAction) (t1 t2 : List Ev)
    (i : ℕ) (m : Mode) (lbl : String)
    (h : runTrace acts = t1 ++ Ev.labelWrite i m lbl :: t2) :
    ∃ m2 p, Ev.coordsWrite i m2 p ∈ t1 := by
  rcases run_label_source acts initSys t1 t2 i m lbl h with ⟨pl, hpl, _⟩ | hc
  · simp [initSys] at hpl
  · exact hc

/-- C6 witness: in the run of one click followed by the delivery of a
failed lookup, the coordinate write is found before the label write. -/
theorem C6_witness :
    ∃ m2 p, Ev.coordsWrite 0 m2 p ∈
      [Ev.markerAdd Mode.mFrom, Ev.markerMove Mode.mFrom ⟨1, 2⟩,
       Ev.coordsWrite 0 Mode.mFrom ⟨1, 2⟩] :=
  C6_coords_precede_label
    [UAction.clickMap ⟨1, 2⟩, UAction.deliver 0 FetchOutcome.networkError]
    [Ev.markerAdd Mode.mFrom, Ev.markerMove Mode.mFrom ⟨1, 2⟩,
     Ev.coordsWrite 0 Mode.mFrom ⟨1, 2⟩]
    [] 0 Mode.mFrom "1.00000, 2.00000" (by decide)

/-- C7 counterexample: the geocode callback reads `currentMode` when the
response arrives, not when the click happened — clicking in `from` mode,
switching to `to`, then receiving the response produces a label write
tagged `to` for a click whose coordinate write was tagged `from`. -/
theorem C7_counterexample :
    ¬ (∀ (acts : List UAction) (i : ℕ) (m m2 : Mode) (p : LatLng)
        (lbl : String),
        Ev.coordsWrite i m p ∈ runTrace acts →
        Ev.labelWrite i m2 lbl ∈ runTrace acts → m2 = m) := by
  intro h
  have hx := h cexActs 0 Mode.mFrom Mode.mTo ⟨1, 2⟩ "Осойца"
    (by decide) (by decide)
  exact Mode.noConfusion hx

/-- C7 (amended): the click emits the click-time mode with the coordinate
write, but the label is written into the place-name fields of the mode
current at delivery time — after clicking in `from` mode, switching to
`to` and then receiving any response, both forms' `to` fields hold the
resolved label while the `from` fields keep their initial value. -/
theorem C7_label_follows_delivery_mode (p : LatLng) (oc : FetchOutcome) :
    (runSys [UAction.clickMap p, UAction.setMode Mode.mTo,
        UAction.deliver 0 oc]).st.fields.offerToField =
      some (FieldVal.s (resolvedLabel p.lat p.lng oc)) ∧
    (runSys [UAction.clickMap p, UAction.setMode Mode.mTo,
        UAction.deliver 0 oc]).st.fields.requestToField =
      some (FieldVal.s (resolvedLabel p.lat p.lng oc)) ∧
    (runSys [UAction.clickMap p, UAction.setMode Mode.mTo,
        UAction.deliver 0 oc]).st.fields.offerFromField =
      some (FieldVal.s "") ∧
    (runSys [UAction.clickMap p, UAction.setMode Mode.mTo,
        UAction.deliver 0 oc]).st.fields.requestFromField =
      some (FieldVal.s "") ∧
    runTrace [UAction.clickMap p, UAction.setMode Mode.mTo,
        UAction.deliver 0 oc] =
      [Ev.markerAdd Mode.mFrom, Ev.markerMove Mode.mFrom p,
       Ev.coordsWrite 0 Mode.mFrom p,
       Ev.labelWrite 0 Mode.mTo (resolvedLabel p.lat p.lng oc)] := by
  obtain ⟨lat, lng⟩ := p
  cases oc <;> exact ⟨rfl, rfl, rfl, rfl, rfl⟩

/-- C8: a click while a given mode is active moves only that mode's
marker — the other mode's marker position and attached flag are
untouched — and in the spec's example run the `from` marker still holds
its earlier position after a later click in `to` mode. -/
theorem C8_click_moves_only_active_marker :
    (∀ (sys : Sys) (p : LatLng),
      (clickStep sys p).1.st.fromMarkerPos =
        (if sys.st.currentMode = Mode.mFrom then p
          else sys.st.fromMarkerPos) ∧
      (clickStep sys p).1.st.toMarkerPos =
        (if sys.st.currentMode = Mode.mTo then p else sys.st.toMarkerPos) ∧
      (clickStep sys p).1.st.fromMarkerAdded =
        (if sys.st.currentMode = Mode.mFrom then true
          else sys.st.fromMarkerAdded) ∧
      (clickStep sys p).1.st.toMarkerAdded =
        (if sys.st.currentMode = Mode.mTo then true
          else sys.st.toMarkerAdded)) ∧
    (∀ p1 p2 : LatLng,
      (runSys [UAction.clickMap p1, UAction.setMode Mode.mTo,
        UAction.clickMap p2]).st.fromMarkerPos = p1 ∧
      (runSys [UAction.clickMap p1, UAction.setMode Mode.mTo,
        UAction.clickMap p2]).st.toMarkerPos = p2) := by
  constructor
  · intro sys p
    obtain ⟨⟨cm, fmp, tmp, fma, tma, flds⟩, pend, nid⟩ := sys
    cases cm <;> simp [clickStep]
  · intro p1 p2
    exact ⟨rfl, rfl⟩

/-- C9: each mode's marker is attached exactly once, on the first click
in that mode — over any run the number of attach events equals the
attached flag's indicator, the flag is set exactly when some click moved
that marker, and a single click's event list attaches only when the flag
was still unset, then always repositions (no remove event exists in the
model, mirroring the absence of any removal call in the source). -/
theorem C9_marker_attach_idempotent :
    (∀ (acts : List UAction) (m : Mode),
      countMarkerAdd m (runTrace acts) =
        (if markerAddedFlag (runSys acts).st m then 1 else 0)) ∧
    (∀ (acts : List UAction) (m : Mode),
      markerAddedFlag (runSys acts).st m = true ↔
        ∃ p, Ev.markerMove m p ∈ runTrace acts) ∧
    (∀ (sys : Sys) (p : LatLng),
      (clickStep sys p).2 =
        (if markerAddedFlag sys.st sys.st.currentMode then []
          else [Ev.markerAdd sys.st.currentMode]) ++
        [Ev.markerMove sys.st.currentMode p,
         Ev.coordsWrite sys.nextId sys.st.currentMode p]) := by
  refine ⟨?_, ?_, ?_⟩
  · intro acts m
    have h := count_flag_run acts initSys m
    have h0 : markerAddedFlag initSys.st m = false := by cases m <;> rfl
    rw [h0] at h
    simpa [runTrace, runSys] using h
  · intro acts m
    have h := flag_run_iff acts initSys m
    have h0 : markerAddedFlag initSys.st m = false := by cases m <;> rfl
    rw [h0] at h
    simpa [runTrace, runSys] using h
  · intro sys p
    obtain ⟨⟨cm, fmp, tmp, fma, tma, flds⟩, pend, nid⟩ := sys
    cases cm <;> cases fma <;> cases tma <;> simp [clickStep, markerAddedFlag]

/-- C9 witness: after one click in `from` mode the flag is set via a
concrete marker move, and over a two-click run the `from` marker is
attached the indicated number of times. -/
theorem C9_witness :
    markerAddedFlag
        (runSys [UAction.clickMap ⟨1, 2⟩]).st Mode.mFrom = true ∧
    countMarkerAdd Mode.mFrom
        (runTrace [UAction.clickMap ⟨1, 2⟩, UAction.clickMap ⟨3, 4⟩]) =
      (if markerAddedFlag
          (runSys [UAction.clickMap ⟨1, 2⟩, UAction.clickMap ⟨3, 4⟩]).st
          Mode.mFrom then 1 else 0) :=
  ⟨(C9_marker_attach_idempotent.2.1 [UAction.clickMap ⟨1, 2⟩]
      Mode.mFrom).mpr ⟨⟨1, 2⟩, by decide⟩,
   C9_marker_attach_idempotent.1
     [UAction.clickMap ⟨1, 2⟩, UAction.clickMap ⟨3, 4⟩] Mode.mFrom⟩

end VillageRide
